import Mathlib

/-!
Shallow embedding of the kalshibot analysis core
(`src/kalshibot/analyzer.py` and `src/kalshibot/soccer.py`).

Market snapshots arrive as loosely-typed dicts; numeric fields that are
missing or null are represented as `none` in `RawMarket` (the code reads
them with `market.get(k, 0) or 0`, so both cases collapse to `0`).
Quote fields are modelled as exact rationals `ℚ`, volumes and open
interest as integers, mirroring the data model the code manipulates.
-/

/-- Round-half-to-even of a rational to an integer, the rounding mode used
by Python's `round` and fixed-point string formatting. -/
def roundTE (x : ℚ) : ℤ :=
  if x - ⌊x⌋ < 1/2 then ⌊x⌋
  else if 1/2 < x - ⌊x⌋ then ⌊x⌋ + 1
  else if Even ⌊x⌋ then ⌊x⌋ else ⌊x⌋ + 1

/-- Python's `round(x, 3)`: round to the nearest multiple of `1/1000`,
ties to even. -/
def round3 (x : ℚ) : ℚ := (roundTE (1000 * x) : ℚ) / 1000

/-- Python's `f"{q:.0f}"` fixed-point formatting with no decimals
(sign-magnitude, so `-0.3` renders as `"-0"`). -/
def fmt0 (q : ℚ) : String :=
  if q < 0 then "-" ++ toString (roundTE (-q)) else toString (roundTE q)

/-- Python's `f"{q:.1f}"` fixed-point formatting with one decimal digit. -/
def fmt1 (q : ℚ) : String :=
  if q < 0 then
    let n := roundTE (10 * (-q))
    "-" ++ toString (n / 10) ++ "." ++ toString (n % 10)
  else
    let n := roundTE (10 * q)
    toString (n / 10) ++ "." ++ toString (n % 10)

/-- Python's `str` applied to a numeric dict value inside an f-string.
Integer-valued quantities render like Python ints (the only case the
analysed flag strings exercise); non-integral rationals fall back to the
`num/den` rendering. -/
def pyNumStr (q : ℚ) : String :=
  if q.den = 1 then toString q.num else toString q

/-- A raw Kalshi market dict as consumed by `score_market` and
`detect_movements`. `none` stands for a field that is missing or null. -/
structure RawMarket where
  ticker : String := ""
  title : Option String := none
  category : String := ""
  event_ticker : String := ""
  subtitle : Option String := none
  yes_bid : Option ℚ := none
  yes_ask : Option ℚ := none
  no_bid : Option ℚ := none
  no_ask : Option ℚ := none
  volume_24h : Option ℤ := none
  open_interest : Option ℤ := none
  close_time : Option String := none
deriving DecidableEq

/-- `MarketSignal` dataclass from `analyzer.py`. -/
structure MarketSignal where
  ticker : String
  title : String
  category : String
  yes_bid : ℚ
  yes_ask : ℚ
  no_bid : ℚ
  no_ask : ℚ
  volume_24h : ℤ
  open_interest : ℤ
  spread : ℚ
  midpoint : ℚ
  skew : ℚ
  anomaly_score : ℚ
  flags : List String
  close_time : Option String
deriving DecidableEq

/-- `_spread_score` from `analyzer.py`: higher score for larger spread
relative to midpoint. -/
def spread_score (spread midpoint : ℚ) : ℚ :=
  if midpoint ≤ 0 then 0
  else
    let relative := spread / max midpoint 1
    min (relative / 0.5) 1

/-- `_liquidity_score` from `analyzer.py`: higher score for lower volume
and thinner open interest. -/
def liquidity_score (volume_24h open_interest max_vol : ℤ) : ℚ :=
  let vol_score := 1 - min ((volume_24h : ℚ) / ((max max_vol 1 : ℤ) : ℚ)) 1
  let oi_score := 1 - min ((open_interest : ℚ) / ((max (max_vol * 5) 1 : ℤ) : ℚ)) 1
  0.6 * vol_score + 0.4 * oi_score

/-- `_skew_score` from `analyzer.py`: gap between `yes_bid + no_ask`
and 100, saturating at a 20-cent gap. -/
def skew_score (yes_bid no_ask : ℚ) : ℚ :=
  min (|yes_bid + no_ask - 100| / 20) 1

/-- `score_market` from `analyzer.py`: given a raw market dict, return a
`MarketSignal` if scoreable, else `none`. -/
def score_market (market : RawMarket) (volume_threshold : ℤ) : Option MarketSignal :=
  let ticker := market.ticker
  let yes_bid := market.yes_bid.getD 0
  let yes_ask := market.yes_ask.getD 0
  let no_bid := market.no_bid.getD 0
  let no_ask := market.no_ask.getD 0
  let volume_24h := market.volume_24h.getD 0
  let open_interest := market.open_interest.getD 0
  if yes_ask = 0 ∨ no_ask = 0 then none
  else
    let spread := yes_ask - yes_bid
    let midpoint := (yes_bid + yes_ask) / 2
    let skew := |yes_bid + no_ask - 100|
    let s_score := spread_score spread midpoint
    let l_score := liquidity_score volume_24h open_interest volume_threshold
    let k_score := skew_score yes_bid no_ask
    let anomaly_score := round3 (0.40 * s_score + 0.35 * l_score + 0.25 * k_score)
    let flags : List String :=
      (if 10 ≤ spread then ["wide-spread (" ++ pyNumStr spread ++ "¢)"] else [])
        ++ (if volume_24h ≤ volume_threshold then
              ["low-volume (" ++ toString volume_24h ++ ")"] else [])
        ++ (if 5 ≤ skew then ["price-skew (" ++ fmt1 skew ++ "¢ gap)"] else [])
    some
      { ticker := ticker
        title := market.title.getD ticker
        category := market.category
        yes_bid := yes_bid
        yes_ask := yes_ask
        no_bid := no_bid
        no_ask := no_ask
        volume_24h := volume_24h
        open_interest := open_interest
        spread := spread
        midpoint := midpoint
        skew := skew
        anomaly_score := anomaly_score
        flags := flags
        close_time := market.close_time }

/-- The comparison used by `signals.sort(key=lambda s: s.anomaly_score,
reverse=True)`: `a` may precede `b` when its score is at least `b`'s. -/
def scoreGE (a b : MarketSignal) : Prop :=
  b.anomaly_score ≤ a.anomaly_score

instance : DecidableRel scoreGE :=
  fun a b => inferInstanceAs (Decidable (b.anomaly_score ≤ a.anomaly_score))

instance : IsTotal MarketSignal scoreGE :=
  ⟨fun a b => le_total b.anomaly_score a.anomaly_score⟩

instance : IsTrans MarketSignal scoreGE :=
  ⟨fun _ _ _ h1 h2 => le_trans h2 h1⟩

/-- Python's `list.sort(key=lambda s: s.anomaly_score, reverse=True)` is a
stable descending sort; insertion sort with `scoreGE` computes exactly the
unique stable descending ordering. -/
def sortDesc (l : List MarketSignal) : List MarketSignal :=
  List.insertionSort scoreGE l

/-- Body of the accumulation loop of `find_anomalies` (lines 125-134 of
`analyzer.py`). -/
def collect_step (min_score : ℚ) (volume_threshold : ℤ) (spread_threshold : ℚ)
    (min_volume : ℤ) (signals : List MarketSignal) (m : RawMarket) : List MarketSignal :=
  match score_market m volume_threshold with
  | none => signals
  | some sig =>
    if sig.volume_24h < min_volume then signals
    else if min_score ≤ sig.anomaly_score then signals ++ [sig]
    else if spread_threshold ≤ sig.spread then
      signals ++ [{ sig with flags := sig.flags ++ ["spread-threshold"] }]
    else signals

/-- The `signals` list built by the loop of `find_anomalies`, in input
order, before sorting. -/
def collect_signals (markets : List RawMarket) (min_score : ℚ) (volume_threshold : ℤ)
    (spread_threshold : ℚ) (min_volume : ℤ) : List MarketSignal :=
  markets.foldl (collect_step min_score volume_threshold spread_threshold min_volume) []

/-- `find_anomalies` from `analyzer.py`: score all markets, filter, and
sort by `anomaly_score` descending (stable). -/
def find_anomalies (markets : List RawMarket) (min_score : ℚ) (volume_threshold : ℤ)
    (spread_threshold : ℚ) (min_volume : ℤ) : List MarketSignal :=
  sortDesc (collect_signals markets min_score volume_threshold spread_threshold min_volume)

/-- A candlestick as `detect_movements` consumes it, with the fields the
data model requires: an end-of-period timestamp, optional closing
bid/ask (absent when the candle dict lacks them or holds null), and a
non-negative traded volume (`c.get("volume", 0)` with a missing field
counting as 0). -/
structure Candle where
  end_period_ts : ℤ
  yes_bid_close : Option ℚ
  yes_ask_close : Option ℚ
  volume : ℕ
deriving DecidableEq

/-- `_candle_midpoint` from `soccer.py`: midpoint of a candle's closing
bid/ask, absent when either side is missing. -/
def candle_midpoint (c : Candle) : Option ℚ :=
  match c.yes_bid_close, c.yes_ask_close with
  | some bid, some ask => some ((bid + ask) / 2)
  | _, _ => none

/-- `_nearest_candle` from `soccer.py`: the candle whose `end_period_ts`
is closest to `target_ts`; Python's `min` keeps the first minimiser in
input order. -/
def nearest_candle (candles : List Candle) (target_ts : ℤ) : Option Candle :=
  match candles with
  | [] => none
  | c :: cs =>
    some (cs.foldl
      (fun best c => if |c.end_period_ts - target_ts| < |best.end_period_ts - target_ts|
        then c else best) c)

/-- One price-move block of `detect_movements` (the short-term and
long-term blocks both have this shape): the alert strings it appends and
the candidate magnitude it contributes (`0` when nothing fires). -/
def priceMoveStep (candles : List Candle) (current_mid : ℚ) (target_ts : ℤ)
    (cents : ℚ) (label : String) : List String × ℚ :=
  match nearest_candle candles target_ts with
  | none => ([], 0)
  | some c =>
    match candle_midpoint c with
    | none => ([], 0)
    | some m =>
      let move := current_mid - m
      if cents ≤ |move| then
        (["price " ++ (if 0 < move then "+" else "") ++ fmt0 move ++ "¢ in " ++ label],
          |move|)
      else ([], 0)

/-- The recent-to-earlier volume ratio of the volume-spike block of
`detect_movements`: split at the floor midpoint, sum each half, replace a
zero earlier sum by 1 (`sum(...) or 1`). -/
def spikeRatio (candles : List Candle) : ℚ :=
  let mid := candles.length / 2
  let earlier_vol0 := ((candles.take mid).map Candle.volume).sum
  let earlier_vol := if earlier_vol0 = 0 then 1 else earlier_vol0
  let recent_vol := ((candles.drop mid).map Candle.volume).sum
  (recent_vol : ℚ) / (earlier_vol : ℚ)

/-- The volume-spike block of `detect_movements` (lines 98-105 of
`soccer.py`): alert strings appended and candidate magnitude. -/
def volumeSpikeStep (candles : List Candle) (volume_multiplier : ℚ) : List String × ℚ :=
  if 4 ≤ candles.length then
    let r := spikeRatio candles
    if volume_multiplier ≤ r then
      (["volume spike " ++ fmt1 r ++ "x"], r * 5)
    else ([], 0)
  else ([], 0)

/-- `MovementAlert` dataclass from `soccer.py`. -/
structure MovementAlert where
  ticker : String
  series_ticker : String
  event_ticker : String
  title : String
  subtitle : String
  yes_bid : ℚ
  yes_ask : ℚ
  midpoint : ℚ
  volume_24h : ℤ
  alerts : List String
  magnitude : ℚ
  close_time : String
deriving DecidableEq

/-- The series ticker derivation of `detect_movements`:
`event_ticker.split("-")[0] if event_ticker else ""`. -/
def seriesOf (event_ticker : String) : String :=
  if event_ticker = "" then "" else (event_ticker.splitOn "-").headD ""

/-- The tail of `detect_movements` (lines 107-126 of `soccer.py`): given
the three step results, concatenate the alert strings, fold the magnitude
updates (each step contributes 0 when it did not fire), and build the
`MovementAlert` unless no alert was emitted. -/
def assembleAlert (market : RawMarket) (current_mid : ℚ)
    (shortRes longRes volRes : List String × ℚ) : Option MovementAlert :=
  if shortRes.1 ++ longRes.1 ++ volRes.1 = [] then none
  else
    some
      { ticker := market.ticker
        series_ticker := seriesOf market.event_ticker
        event_ticker := market.event_ticker
        title := market.title.getD ""
        subtitle := market.subtitle.getD ""
        yes_bid := market.yes_bid.getD 0
        yes_ask := market.yes_ask.getD 0
        midpoint := current_mid
        volume_24h := market.volume_24h.getD 0
        alerts := shortRes.1 ++ longRes.1 ++ volRes.1
        magnitude := max (max (max 0 shortRes.2) longRes.2) volRes.2
        close_time := market.close_time.getD "" }

/-- `detect_movements` from `soccer.py`, over candles that carry the
fields the data model requires. Returns an alert when any threshold is
breached, else `none`. -/
def detect_movements (market : RawMarket) (candles : List Candle) (short_minutes : ℤ)
    (short_cents : ℚ) (long_hours : ℤ) (long_cents : ℚ) (volume_multiplier : ℚ) :
    Option MovementAlert :=
  match candles with
  | [] => none
  | c0 :: rest =>
    let yes_bid := market.yes_bid.getD 0
    let yes_ask := market.yes_ask.getD 0
    if yes_ask = 0 then none
    else
      let current_mid := (yes_bid + yes_ask) / 2
      let current_ts := rest.foldl (fun acc c => max acc c.end_period_ts) c0.end_period_ts
      let shortRes := priceMoveStep candles current_mid (current_ts - short_minutes * 60)
        short_cents (toString short_minutes ++ "m")
      let longRes := priceMoveStep candles current_mid (current_ts - long_hours * 3600)
        long_cents (toString long_hours ++ "h")
      let volRes := volumeSpikeStep candles volume_multiplier
      assembleAlert market current_mid shortRes longRes volRes

/-- A candle dict `volume` entry: absent (`.get` default 0 applies), null
(summing it raises `TypeError`), or an integer value. -/
inductive VolField where
  | vmissing : VolField
  | vnull : VolField
  | vval (n : ℕ) : VolField
deriving DecidableEq

/-- A raw candle dict before any well-formedness is known: the
`end_period_ts` key may be missing entirely (indexing it raises
`KeyError`), and the volume entry may be null. -/
structure RawCandle where
  end_period_ts : Option ℤ
  yes_bid_close : Option ℚ
  yes_ask_close : Option ℚ
  volume : VolField
deriving DecidableEq

/-- Reading the dict fields of a raw candle the way `detect_movements`
does, once its `end_period_ts` is known present and its volume non-null
(a missing volume reads as 0). -/
def RawCandle.toCandle (c : RawCandle) : Candle :=
  { end_period_ts := c.end_period_ts.getD 0
    yes_bid_close := c.yes_bid_close
    yes_ask_close := c.yes_ask_close
    volume := match c.volume with
      | .vmissing => 0
      | .vnull => 0
      | .vval n => n }

/-- `detect_movements` on raw candle dicts, with Python's exception
behaviour made explicit: after the empty-candles and inactive-ask early
returns, `max(c["end_period_ts"] for c in candles)` (and the `min` inside
`_nearest_candle`) raises `KeyError` when any candle lacks the key, and —
when the volume-spike block runs, i.e. `len(candles) >= 4` — summing a
null volume raises `TypeError`. `Except.error ()` stands for any raised
exception; in the non-raising cases the dict reads coincide with
`RawCandle.toCandle`, so the result delegates to `detect_movements`. -/
def detect_movements_raw (market : RawMarket) (candles : List RawCandle)
    (short_minutes : ℤ) (short_cents : ℚ) (long_hours : ℤ) (long_cents : ℚ)
    (volume_multiplier : ℚ) : Except Unit (Option MovementAlert) :=
  match candles with
  | [] => .ok none
  | _ :: _ =>
    if market.yes_ask.getD 0 = 0 then .ok none
    else if ∃ c ∈ candles, c.end_period_ts = none then .error ()
    else if 4 ≤ candles.length ∧ ∃ c ∈ candles, c.volume = VolField.vnull then .error ()
    else .ok (detect_movements market (candles.map RawCandle.toCandle)
      short_minutes short_cents long_hours long_cents volume_multiplier)

/-- Modelled from the spec: the per-market selection rule of
`find_anomalies` as the specification words it — a scored snapshot whose
volume is below `min_volume` is dropped regardless of score; otherwise it
is included when `anomaly_score ≥ min_score`, or else (mutually exclusive
fallback) when `spread ≥ spread_threshold`, in which case the flag
`"spread-threshold"` is appended before inclusion. -/
def select_spec (min_score : ℚ) (volume_threshold : ℤ) (spread_threshold : ℚ)
    (min_volume : ℤ) (m : RawMarket) : Option MarketSignal :=
  match score_market m volume_threshold with
  | none => none
  | some sig =>
    if sig.volume_24h < min_volume then none
    else if min_score ≤ sig.anomaly_score then some sig
    else if spread_threshold ≤ sig.spread then
      some { sig with flags := sig.flags ++ ["spread-threshold"] }
    else none

/-- Scenario A of the spec: the snapshot with `yes_bid=40, yes_ask=60,
no_bid=35, no_ask=45, volume_24h=10, open_interest=5`. -/
def mA : RawMarket :=
  { yes_bid := some 40, yes_ask := some 60, no_bid := some 35, no_ask := some 45,
    volume_24h := some 10, open_interest := some 5 }

/-- The signal `score_market` produces for scenario A with threshold 500. -/
def sigA : MarketSignal :=
  { ticker := "", title := "", category := "", yes_bid := 40, yes_ask := 60,
    no_bid := 35, no_ask := 45, volume_24h := 10, open_interest := 5,
    spread := 20, midpoint := 50, skew := 15, anomaly_score := 853/1000,
    flags := ["wide-spread (20¢)", "low-volume (10)", "price-skew (15.0¢ gap)"],
    close_time := none }

/-- A snapshot with two-sided yes pricing (40/60) and every other field,
`no_ask` included, missing. -/
def mkt46 : RawMarket := { yes_bid := some 40, yes_ask := some 60 }

/-- A single candle closing at bid 30 / ask 50 (midpoint 40). -/
def cD : Candle :=
  { end_period_ts := 0, yes_bid_close := some 30, yes_ask_close := some 50, volume := 0 }

/-- The alert `detect_movements` produces for `mkt46` and `[cD]` at the
default thresholds: both price moves fire (current midpoint 50 vs 40). -/
def aD : MovementAlert :=
  { ticker := "", series_ticker := "", event_ticker := "", title := "", subtitle := "",
    yes_bid := 40, yes_ask := 60, midpoint := 50, volume_24h := 0,
    alerts := ["price +10¢ in 30m", "price +10¢ in 2h"], magnitude := 10,
    close_time := "" }

/-- Scenario B of the spec: six candles, earlier-half volume 100,
recent-half volume 300, no close quotes. -/
def csB : List Candle :=
  [{ end_period_ts := 1, yes_bid_close := none, yes_ask_close := none, volume := 30 },
   { end_period_ts := 2, yes_bid_close := none, yes_ask_close := none, volume := 30 },
   { end_period_ts := 3, yes_bid_close := none, yes_ask_close := none, volume := 40 },
   { end_period_ts := 4, yes_bid_close := none, yes_ask_close := none, volume := 100 },
   { end_period_ts := 5, yes_bid_close := none, yes_ask_close := none, volume := 100 },
   { end_period_ts := 6, yes_bid_close := none, yes_ask_close := none, volume := 100 }]

/-- A crossed-book snapshot whose quote fields all lie in 0-100:
`yes_bid=100 > yes_ask=1`, so the spread is negative. -/
def mNeg : RawMarket :=
  { yes_bid := some 100, yes_ask := some 1, no_bid := some 0, no_ask := some 1,
    volume_24h := some 0, open_interest := some 0 }

/-- A raw candle dict lacking the `end_period_ts` key entirely. -/
def rcNoTs : RawCandle :=
  { end_period_ts := none, yes_bid_close := none, yes_ask_close := none,
    volume := VolField.vmissing }

lemma floor_le_roundTE (x : ℚ) : ⌊x⌋ ≤ roundTE x := by
  unfold roundTE
  split_ifs <;> omega

lemma roundTE_le_ceil (x : ℚ) : roundTE x ≤ ⌈x⌉ := by
  unfold roundTE
  split_ifs with h1 h2 h3
  · exact Int.floor_le_ceil x
  · have hx : (⌊x⌋ : ℚ) < x := by linarith
    exact Int.add_one_le_iff.mpr (Int.lt_ceil.mpr hx)
  · exact Int.floor_le_ceil x
  · have hx : (⌊x⌋ : ℚ) < x := by
      have : ¬ x - ⌊x⌋ < 1/2 := h1
      linarith
    exact Int.add_one_le_iff.mpr (Int.lt_ceil.mpr hx)

lemma round3_mem (x : ℚ) (h0 : 0 ≤ x) (h1 : x ≤ 1) :
    0 ≤ round3 x ∧ round3 x ≤ 1 := by
  unfold round3
  constructor
  · have hfl : (0 : ℤ) ≤ ⌊(1000 : ℚ) * x⌋ := Int.floor_nonneg.mpr (by linarith)
    have := floor_le_roundTE (1000 * x)
    have : (0 : ℤ) ≤ roundTE (1000 * x) := le_trans hfl this
    have : (0 : ℚ) ≤ (roundTE (1000 * x) : ℚ) := by exact_mod_cast this
    linarith
  · have hcl : ⌈(1000 : ℚ) * x⌉ ≤ 1000 := Int.ceil_le.mpr (by push_cast; linarith)
    have := roundTE_le_ceil (1000 * x)
    have h2 : roundTE (1000 * x) ≤ 1000 := le_trans this hcl
    have : (roundTE (1000 * x) : ℚ) ≤ 1000 := by exact_mod_cast h2
    linarith

lemma spread_score_mem (s m : ℚ) (hs : 0 ≤ s) :
    0 ≤ spread_score s m ∧ spread_score s m ≤ 1 := by
  unfold spread_score
  split_ifs with h
  · exact ⟨le_rfl, zero_le_one⟩
  · have hd : (0 : ℚ) < max m 1 := lt_of_lt_of_le one_pos (le_max_right m 1)
    constructor
    · exact le_min (by positivity) zero_le_one
    · exact min_le_right _ _

lemma liquidity_score_mem (v oi vt : ℤ) (hv : 0 ≤ v) (hoi : 0 ≤ oi) :
    0 ≤ liquidity_score v oi vt ∧ liquidity_score v oi vt ≤ 1 := by
  unfold liquidity_score
  have hd1 : (0 : ℚ) < ((max vt 1 : ℤ) : ℚ) := by
    have : (1 : ℤ) ≤ max vt 1 := le_max_right vt 1
    exact_mod_cast lt_of_lt_of_le Int.zero_lt_one this
  have hd2 : (0 : ℚ) < ((max (vt * 5) 1 : ℤ) : ℚ) := by
    have : (1 : ℤ) ≤ max (vt * 5) 1 := le_max_right _ 1
    exact_mod_cast lt_of_lt_of_le Int.zero_lt_one this
  have hv' : (0 : ℚ) ≤ (v : ℚ) := by exact_mod_cast hv
  have hoi' : (0 : ℚ) ≤ (oi : ℚ) := by exact_mod_cast hoi
  have h1 : 0 ≤ min ((v : ℚ) / ((max vt 1 : ℤ) : ℚ)) 1 :=
    le_min (by positivity) zero_le_one
  have h2 : min ((v : ℚ) / ((max vt 1 : ℤ) : ℚ)) 1 ≤ 1 := min_le_right _ _
  have h3 : 0 ≤ min ((oi : ℚ) / ((max (vt * 5) 1 : ℤ) : ℚ)) 1 :=
    le_min (by positivity) zero_le_one
  have h4 : min ((oi : ℚ) / ((max (vt * 5) 1 : ℤ) : ℚ)) 1 ≤ 1 := min_le_right _ _
  constructor <;> [linarith; linarith]

lemma skew_score_mem (yb na : ℚ) : 0 ≤ skew_score yb na ∧ skew_score yb na ≤ 1 := by
  unfold skew_score
  constructor
  · exact le_min (by positivity) zero_le_one
  · exact min_le_right _ _

lemma filter_orderedInsert (q : ℚ) (s : MarketSignal) (l : List MarketSignal) :
    (List.orderedInsert scoreGE s l).filter (fun x => decide (x.anomaly_score = q)) =
      if s.anomaly_score = q then
        s :: l.filter (fun x => decide (x.anomaly_score = q))
      else l.filter (fun x => decide (x.anomaly_score = q)) := by
  induction l with
  | nil => by_cases hq : s.anomaly_score = q <;> simp [List.orderedInsert, List.filter, hq]
  | cons t ts ih =>
    by_cases hst : scoreGE s t
    · rw [List.orderedInsert, if_pos hst]
      by_cases hq : s.anomaly_score = q <;> simp [List.filter, hq]
    · rw [List.orderedInsert, if_neg hst]
      have htq : ¬ (t.anomaly_score = q ∧ s.anomaly_score = q) := by
        rintro ⟨ht, hs⟩
        exact hst (by unfold scoreGE; rw [ht, hs])
      by_cases hq : s.anomaly_score = q
      · have ht : ¬ t.anomaly_score = q := fun h => htq ⟨h, hq⟩
        simp [List.filter, ht, hq, ih]
      · by_cases ht : t.anomaly_score = q <;> simp [List.filter, ht, hq, ih]

lemma filter_sortDesc (q : ℚ) (l : List MarketSignal) :
    (sortDesc l).filter (fun x => decide (x.anomaly_score = q)) =
      l.filter (fun x => decide (x.anomaly_score = q)) := by
  induction l with
  | nil => rfl
  | cons x l ih =>
    rw [show sortDesc (x :: l) = List.orderedInsert scoreGE x (sortDesc l) from rfl,
      filter_orderedInsert]
    by_cases hq : x.anomaly_score = q <;> simp [List.filter, hq, ih]

lemma collect_step_eq (a : ℚ) (vt : ℤ) (st : ℚ) (mv : ℤ)
    (acc : List MarketSignal) (m : RawMarket) :
    collect_step a vt st mv acc m = acc ++ (select_spec a vt st mv m).toList := by
  unfold collect_step select_spec
  cases score_market m vt with
  | none => simp
  | some sig =>
    dsimp only
    split_ifs <;> simp

lemma collect_go (a : ℚ) (vt : ℤ) (st : ℚ) (mv : ℤ) (ms : List RawMarket) :
    ∀ acc : List MarketSignal,
      ms.foldl (collect_step a vt st mv) acc = acc ++ ms.filterMap (select_spec a vt st mv) := by
  induction ms with
  | nil => intro acc; simp
  | cons m ms ih =>
    intro acc
    rw [List.foldl_cons, ih, collect_step_eq, List.filterMap_cons]
    cases select_spec a vt st mv m <;> simp

lemma collect_signals_eq (ms : List RawMarket) (a : ℚ) (vt : ℤ) (st : ℚ) (mv : ℤ) :
    collect_signals ms a vt st mv = ms.filterMap (select_spec a vt st mv) := by
  unfold collect_signals
  rw [collect_go]
  simp

lemma priceMoveStep_snd_of_fired (cs : List Candle) (cm : ℚ) (t : ℤ) (c : ℚ) (lbl : String)
    (h : (priceMoveStep cs cm t c lbl).1 ≠ []) : c ≤ (priceMoveStep cs cm t c lbl).2 := by
  unfold priceMoveStep at h ⊢
  cases hn : nearest_candle cs t with
  | none => rw [hn] at h; exact absurd rfl h
  | some cand =>
    rw [hn] at h
    dsimp only at h ⊢
    cases hm : candle_midpoint cand with
    | none => rw [hm] at h; exact absurd rfl h
    | some mid =>
      rw [hm] at h
      dsimp only at h ⊢
      by_cases hc : c ≤ |cm - mid|
      · rw [if_pos hc]
        exact hc
      · rw [if_neg hc] at h
        exact absurd rfl h

lemma volumeSpikeStep_snd_of_fired (cs : List Candle) (vm : ℚ)
    (h : (volumeSpikeStep cs vm).1 ≠ []) : vm * 5 ≤ (volumeSpikeStep cs vm).2 := by
  simp only [volumeSpikeStep] at h ⊢
  split_ifs at h ⊢ with h4 hr
  · dsimp only
    linarith
  · simp at h
  · simp at h

lemma volumeSpikeStep_of_short (cs : List Candle) (vm : ℚ) (h : cs.length < 4) :
    volumeSpikeStep cs vm = ([], 0) := by
  unfold volumeSpikeStep
  rw [if_neg (by omega)]



lemma assembleAlert_eq_some (m : RawMarket) (cm : ℚ) (S L V : List String × ℚ)
    (al : MovementAlert) (h : assembleAlert m cm S L V = some al) :
    al.alerts = S.1 ++ L.1 ++ V.1 ∧
      al.magnitude = max (max (max 0 S.2) L.2) V.2 ∧
      S.1 ++ L.1 ++ V.1 ≠ [] := by
  unfold assembleAlert at h
  by_cases hne : S.1 ++ L.1 ++ V.1 = []
  · rw [if_pos hne] at h
    simp at h
  · rw [if_neg hne] at h
    obtain rfl := Option.some_inj.mp h
    exact ⟨rfl, rfl, hne⟩

lemma assembleAlert_isSome (m : RawMarket) (cm : ℚ) (S L V : List String × ℚ)
    (hne : S.1 ++ L.1 ++ V.1 ≠ []) : (assembleAlert m cm S L V).isSome = true := by
  unfold assembleAlert
  rw [if_neg hne]
  rfl

lemma magnitude_pos (S L V : List String × ℚ) (sc lc vmm : ℚ)
    (hS : S.1 ≠ [] → sc ≤ S.2) (hL : L.1 ≠ [] → lc ≤ L.2)
    (hV : V.1 ≠ [] → vmm * 5 ≤ V.2)
    (hne : S.1 ++ L.1 ++ V.1 ≠ []) (hsc : 0 < sc) (hlc : 0 < lc) (hvm : 0 < vmm) :
    0 < max (max (max 0 S.2) L.2) V.2 := by
  by_cases h1 : S.1 = []
  · by_cases h2 : L.1 = []
    · have h3 : V.1 ≠ [] := by
        intro h3
        exact hne (by rw [h1, h2, h3]; rfl)
      have hv2 : 0 < V.2 := lt_of_lt_of_le (by linarith) (hV h3)
      exact lt_of_lt_of_le hv2 (le_max_right _ _)
    · have hl2 : 0 < L.2 := lt_of_lt_of_le hlc (hL h2)
      exact lt_of_lt_of_le hl2 (le_trans (le_max_right _ _) (le_max_left _ _))
  · have hs2 : 0 < S.2 := lt_of_lt_of_le hsc (hS h1)
    exact lt_of_lt_of_le hs2
      (le_trans (le_max_right _ _) (le_trans (le_max_left _ _) (le_max_left _ _)))

/-- The alert `detect_movements` produces for scenario B (`mkt46` with the
six candles `csB`): only the volume spike fires, ratio 3, magnitude 15. -/
def aB : MovementAlert :=
  { ticker := "", series_ticker := "", event_ticker := "", title := "", subtitle := "",
    yes_bid := 40, yes_ask := 60, midpoint := 50, volume_24h := 0,
    alerts := ["volume spike 3.0x"], magnitude := 15, close_time := "" }

lemma score_market_mA : score_market mA 500 = some sigA := by
  simp only [score_market, mA, sigA, Option.getD_some]
  norm_num [spread_score, liquidity_score, skew_score, round3, roundTE, pyNumStr, fmt1]
  decide

lemma score_market_mNeg :
    (score_market mNeg 500).map MarketSignal.anomaly_score = some (-603/500) := by
  simp only [score_market, mNeg, Option.getD_some]
  norm_num [spread_score, liquidity_score, skew_score, round3, roundTE]

lemma detect_mkt46_cD : detect_movements mkt46 [cD] 30 5 2 10 2 = some aD := by
  simp only [detect_movements, mkt46, cD, aD, Option.getD_some, Option.getD_none]
  norm_num [nearest_candle, candle_midpoint, priceMoveStep, volumeSpikeStep,
    assembleAlert, seriesOf, fmt0, roundTE]
  decide

lemma detect_mkt46_csB : detect_movements mkt46 csB 30 5 2 10 2 = some aB := by
  simp only [detect_movements, mkt46, csB, aB, Option.getD_some, Option.getD_none]
  norm_num [nearest_candle, candle_midpoint, priceMoveStep, volumeSpikeStep, spikeRatio,
    assembleAlert, seriesOf, fmt1, roundTE]
  decide

lemma spikeRatio_csB : spikeRatio csB = 3 := by
  norm_num [spikeRatio, csB]

/-- C2: for every snapshot dict, `score_market` returns `none` if and only
if, after defaulting missing or null fields to 0, `yes_ask = 0` or
`no_ask = 0`; in every other case it returns a `MarketSignal`. -/
theorem c2_score_absent_iff (m : RawMarket) (vt : ℤ) :
    score_market m vt = none ↔ (m.yes_ask.getD 0 = 0 ∨ m.no_ask.getD 0 = 0) := by
  simp only [score_market]
  split_ifs with h
  · simp [h]
  · simp [h]

/-- C1 counterexample: `detect_movements` produces an alert for a snapshot
whose `no_ask` field is missing (hence defaulted to 0), so a produced
alert does not imply two-sided active pricing `yes_ask > 0 ∧ no_ask > 0`. -/
theorem c1_counterexample :
    detect_movements mkt46 [cD] 30 5 2 10 2 = some aD ∧ mkt46.no_ask.getD 0 = 0 :=
  ⟨detect_mkt46_cD, rfl⟩

/-- C1 (amended): whenever `score_market` returns a signal the snapshot has
`yes_ask ≠ 0` and `no_ask ≠ 0` (hence both strictly positive when quotes
are non-negative), but `detect_movements` checks only the yes side: a
produced `MovementAlert` guarantees `yes_ask ≠ 0` and nothing about
`no_ask`. -/
theorem c1_two_sided_amended (m m2 : RawMarket) (vt : ℤ) (cs : List Candle)
    (sm : ℤ) (sc : ℚ) (lh : ℤ) (lc : ℚ) (vm : ℚ) :
    ((score_market m vt).isSome → m.yes_ask.getD 0 ≠ 0 ∧ m.no_ask.getD 0 ≠ 0) ∧
    ((detect_movements m2 cs sm sc lh lc vm).isSome → m2.yes_ask.getD 0 ≠ 0) := by
  constructor
  · intro h
    by_cases hcond : m.yes_ask.getD 0 = 0 ∨ m.no_ask.getD 0 = 0
    · exfalso
      simp only [score_market] at h
      rw [if_pos hcond] at h
      simp at h
    · push_neg at hcond
      exact hcond
  · intro h
    cases cs with
    | nil => simp [detect_movements] at h
    | cons c0 rest =>
      by_cases h1 : m2.yes_ask.getD 0 = 0
      · exfalso
        simp only [detect_movements] at h
        rw [if_pos h1] at h
        simp at h
      · exact h1

/-- Witness for C1: scenario A's snapshot is scoreable, and `mkt46` with
one candle produces a movement alert. -/
theorem c1_two_sided_amended_witness :
    (mA.yes_ask.getD 0 ≠ 0 ∧ mA.no_ask.getD 0 ≠ 0) ∧ mkt46.yes_ask.getD 0 ≠ 0 :=
  ⟨(c1_two_sided_amended mA mkt46 500 [cD] 30 5 2 10 2).1 (by rw [score_market_mA]; rfl),
   (c1_two_sided_amended mA mkt46 500 [cD] 30 5 2 10 2).2 (by rw [detect_mkt46_cD]; rfl)⟩

/-- C3 counterexample: the crossed-book snapshot `mNeg` has every quote in
the conventional 0-100 range and non-negative volume and open interest,
yet its anomaly score is `-603/500 < 0`, outside `[0, 1]`. -/
theorem c3_counterexample :
    (score_market mNeg 500).map MarketSignal.anomaly_score = some (-603/500) ∧
    (-603/500 : ℚ) < 0 ∧
    0 ≤ mNeg.yes_bid.getD 0 ∧ mNeg.yes_bid.getD 0 ≤ 100 ∧
    0 ≤ mNeg.yes_ask.getD 0 ∧ mNeg.yes_ask.getD 0 ≤ 100 ∧
    0 ≤ mNeg.no_bid.getD 0 ∧ mNeg.no_bid.getD 0 ≤ 100 ∧
    0 ≤ mNeg.no_ask.getD 0 ∧ mNeg.no_ask.getD 0 ≤ 100 ∧
    0 ≤ mNeg.volume_24h.getD 0 ∧ 0 ≤ mNeg.open_interest.getD 0 := by
  refine ⟨score_market_mNeg, ?_⟩
  norm_num [mNeg]

/-- C3 (amended): for a snapshot with quotes in range, a non-crossed yes
book (`yes_bid ≤ yes_ask`) and non-negative volume and open interest, a
produced signal's `anomaly_score` equals
`round3 (0.40*spread_score + 0.35*liquidity_score + 0.25*skew_score)` and
lies in `[0, 1]`. -/
theorem c3_anomaly_amended (m : RawMarket) (vt : ℤ) (sig : MarketSignal)
    (hbid : 0 ≤ m.yes_bid.getD 0) (hba : m.yes_bid.getD 0 ≤ m.yes_ask.getD 0)
    (hask : m.yes_ask.getD 0 ≤ 100)
    (hv : 0 ≤ m.volume_24h.getD 0) (hoi : 0 ≤ m.open_interest.getD 0)
    (hs : score_market m vt = some sig) :
    sig.anomaly_score =
      round3 (0.40 * spread_score sig.spread sig.midpoint +
        0.35 * liquidity_score sig.volume_24h sig.open_interest vt +
        0.25 * skew_score sig.yes_bid sig.no_ask) ∧
    0 ≤ sig.anomaly_score ∧ sig.anomaly_score ≤ 1 := by
  by_cases hcond : m.yes_ask.getD 0 = 0 ∨ m.no_ask.getD 0 = 0
  · exfalso
    simp only [score_market] at hs
    rw [if_pos hcond] at hs
    simp at hs
  · simp only [score_market] at hs
    rw [if_neg hcond] at hs
    obtain rfl := Option.some_inj.mp hs
    have hsp : 0 ≤ m.yes_ask.getD 0 - m.yes_bid.getD 0 := by linarith
    have h1 := spread_score_mem (m.yes_ask.getD 0 - m.yes_bid.getD 0)
      ((m.yes_bid.getD 0 + m.yes_ask.getD 0) / 2) hsp
    have h2 := liquidity_score_mem (m.volume_24h.getD 0) (m.open_interest.getD 0) vt hv hoi
    have h3 := skew_score_mem (m.yes_bid.getD 0) (m.no_ask.getD 0)
    have hc0 : 0 ≤ 0.40 * spread_score (m.yes_ask.getD 0 - m.yes_bid.getD 0)
        ((m.yes_bid.getD 0 + m.yes_ask.getD 0) / 2) +
        0.35 * liquidity_score (m.volume_24h.getD 0) (m.open_interest.getD 0) vt +
        0.25 * skew_score (m.yes_bid.getD 0) (m.no_ask.getD 0) := by
      obtain ⟨a1, a2⟩ := h1
      obtain ⟨b1, b2⟩ := h2
      obtain ⟨c1, c2⟩ := h3
      linarith
    have hc1 : 0.40 * spread_score (m.yes_ask.getD 0 - m.yes_bid.getD 0)
        ((m.yes_bid.getD 0 + m.yes_ask.getD 0) / 2) +
        0.35 * liquidity_score (m.volume_24h.getD 0) (m.open_interest.getD 0) vt +
        0.25 * skew_score (m.yes_bid.getD 0) (m.no_ask.getD 0) ≤ 1 := by
      obtain ⟨a1, a2⟩ := h1
      obtain ⟨b1, b2⟩ := h2
      obtain ⟨c1, c2⟩ := h3
      linarith
    have hr := round3_mem _ hc0 hc1
    exact ⟨rfl, hr.1, hr.2⟩

/-- Witness for C3 at scenario A: the hypotheses hold for `mA` and the
signal's score `853/1000` satisfies the composite formula and bounds. -/
theorem c3_anomaly_amended_witness :
    sigA.anomaly_score =
      round3 (0.40 * spread_score sigA.spread sigA.midpoint +
        0.35 * liquidity_score sigA.volume_24h sigA.open_interest 500 +
        0.25 * skew_score sigA.yes_bid sigA.no_ask) ∧
    0 ≤ sigA.anomaly_score ∧ sigA.anomaly_score ≤ 1 :=
  c3_anomaly_amended mA 500 sigA (by norm_num [mA]) (by norm_num [mA]) (by norm_num [mA])
    (by norm_num [mA]) (by norm_num [mA]) score_market_mA

/-- C4: `find_anomalies` computes exactly the specification's selection
rule: each snapshot is scored; a scored snapshot with volume below
`min_volume` is dropped regardless of score; otherwise it is kept when
`anomaly_score ≥ min_score`, or else — mutually exclusive fallback — when
`spread ≥ spread_threshold`, with `"spread-threshold"` appended to its
flags before inclusion; the kept signals are then sorted. -/
theorem c4_selection_rule (ms : List RawMarket) (a : ℚ) (vt : ℤ) (st : ℚ) (mv : ℤ) :
    find_anomalies ms a vt st mv = sortDesc (ms.filterMap (select_spec a vt st mv)) := by
  unfold find_anomalies
  rw [collect_signals_eq]

/-- C5: the output of `find_anomalies` is sorted by `anomaly_score`
descending, and for every score value the subsequence of that score equals
the corresponding subsequence of the pre-sort list `collect_signals`,
which is built in input order — i.e. the sort is stable. -/
theorem c5_sorted_stable (ms : List RawMarket) (a : ℚ) (vt : ℤ) (st : ℚ) (mv : ℤ) :
    List.Sorted scoreGE (find_anomalies ms a vt st mv) ∧
    ∀ q : ℚ, (find_anomalies ms a vt st mv).filter (fun s => decide (s.anomaly_score = q)) =
      (collect_signals ms a vt st mv).filter (fun s => decide (s.anomaly_score = q)) :=
  ⟨List.sorted_insertionSort scoreGE _, fun q => filter_sortDesc q _⟩

/-- C6 counterexample: for midpoint `1/2` and spread `1/4` the claim's
premises hold (`midpoint > 0` and `spread ≥ 0.5*midpoint`), yet the spread
sub-score is `1/2`, not `1.0` — saturation uses `max midpoint 1`, not
`midpoint`. -/
theorem c6_counterexample :
    spread_score (1/4) (1/2) = 1/2 ∧ (0 : ℚ) < 1/2 ∧ (0.5 : ℚ) * (1/2) ≤ 1/4 := by
  norm_num [spread_score, max_def, min_def]

/-- C6 (amended): for fixed midpoint the spread sub-score is non-decreasing
in spread; it is 0 whenever `midpoint ≤ 0`; and it equals 1.0 whenever
`spread ≥ 0.5 * max midpoint 1` (so `≥ 0.5 * midpoint` suffices only once
`midpoint ≥ 1`). -/
theorem c6_spread_score_amended (s s1 s2 m : ℚ) :
    (s1 ≤ s2 → spread_score s1 m ≤ spread_score s2 m) ∧
    (m ≤ 0 → spread_score s m = 0) ∧
    (0 < m → max m 1 / 2 ≤ s → spread_score s m = 1) := by
  refine ⟨fun h12 => ?_, fun hm => ?_, fun hm hs => ?_⟩
  · unfold spread_score
    split_ifs with hmid
    · exact le_rfl
    · have hd : (0 : ℚ) < max m 1 := lt_of_lt_of_le one_pos (le_max_right m 1)
      refine min_le_min ?_ le_rfl
      refine (div_le_div_right (by norm_num : (0:ℚ) < 0.5)).mpr ?_
      exact (div_le_div_right hd).mpr h12
  · unfold spread_score
    rw [if_pos hm]
  · unfold spread_score
    rw [if_neg (not_le.mpr hm)]
    have hd : (0 : ℚ) < max m 1 := lt_of_lt_of_le one_pos (le_max_right m 1)
    have h1 : (1 : ℚ) / 2 ≤ s / max m 1 := by
      rw [le_div_iff hd]
      linarith
    have h2 : (1 : ℚ) ≤ s / max m 1 / 0.5 := by
      rw [le_div_iff (by norm_num : (0:ℚ) < 0.5)]
      linarith
    exact min_eq_right h2

/-- Witness for C6: monotonicity at spreads 1 ≤ 2 on midpoint 50, the zero
case at midpoint -1, and saturation at spread 25 = 0.5*50 on midpoint 50. -/
theorem c6_spread_score_amended_witness :
    spread_score 1 50 ≤ spread_score 2 50 ∧ spread_score 3 (-1) = 0 ∧
      spread_score 25 50 = 1 :=
  ⟨(c6_spread_score_amended 0 1 2 50).1 (by norm_num),
   (c6_spread_score_amended 3 0 0 (-1)).2.1 (by norm_num),
   (c6_spread_score_amended 25 0 0 50).2.2 (by norm_num) (by norm_num [max_def])⟩

/-- C7 counterexample: on a snapshot with an active ask and a single candle
dict lacking the `end_period_ts` key, `detect_movements` raises (`KeyError`
from `max(c["end_period_ts"] for c in candles)`) instead of treating the
missing numeric field as 0. -/
theorem c7_counterexample :
    detect_movements_raw { yes_ask := some 50 } [rcNoTs] 30 5 2 10 2 =
      Except.error () := by
  simp only [detect_movements_raw, rcNoTs]
  norm_num

/-- C7 (amended): `score_market` and `find_anomalies` never raise —
snapshot fields read with `.get(..., 0) or 0` default missing/null to 0 —
and `detect_movements` never raises provided every candle has an
`end_period_ts` and no candle has a null `volume`; in that case it returns
the result computed on the defaulted candles. A candle missing
`end_period_ts` (or, with ≥ 4 candles, a null volume) makes it raise. -/
theorem c7_no_raise_amended (market : RawMarket) (rcs : List RawCandle)
    (sm : ℤ) (sc : ℚ) (lh : ℤ) (lc : ℚ) (vm : ℚ)
    (h : ∀ c ∈ rcs, c.end_period_ts ≠ none ∧ c.volume ≠ VolField.vnull) :
    detect_movements_raw market rcs sm sc lh lc vm =
      Except.ok (detect_movements market (rcs.map RawCandle.toCandle) sm sc lh lc vm) := by
  cases rcs with
  | nil => simp [detect_movements_raw, detect_movements]
  | cons c cs =>
    simp only [detect_movements_raw]
    have hts : ¬ ∃ c' ∈ c :: cs, c'.end_period_ts = none := by
      rintro ⟨c', hc', hn⟩
      exact (h c' hc').1 hn
    have hvol : ¬ (4 ≤ (c :: cs).length ∧ ∃ c' ∈ c :: cs, c'.volume = VolField.vnull) := by
      rintro ⟨-, c', hc', hn⟩
      exact (h c' hc').2 hn
    by_cases hya : market.yes_ask.getD 0 = 0
    · rw [if_pos hya]
      simp [detect_movements, hya]
    · rw [if_neg hya, if_neg hts, if_neg hvol]

/-- Witness for C7: one well-formed candle (timestamp present, integer
volume), on which the raw run returns `ok` of the defaulted-candle run. -/
theorem c7_no_raise_amended_witness :
    detect_movements_raw mkt46
        [{ end_period_ts := some 0, yes_bid_close := some 30, yes_ask_close := some 50,
           volume := VolField.vval 0 }] 30 5 2 10 2 =
      Except.ok (detect_movements mkt46
        ([{ end_period_ts := some 0, yes_bid_close := some 30, yes_ask_close := some 50,
            volume := VolField.vval 0 }].map RawCandle.toCandle) 30 5 2 10 2) :=
  c7_no_raise_amended mkt46 _ 30 5 2 10 2 (by
    intro c hc
    simp only [List.mem_singleton] at hc
    subst hc
    exact ⟨by simp, by simp⟩)

/-- C8: the volume-spike rule of `detect_movements` — with at least 4
candles and an active ask, when `recent_sum / max(earlier_sum, 1) ≥
volume_multiplier` an alert fires, the string
`"volume spike {ratio}x"` is among the alerts and the magnitude is at
least `ratio * 5`; with fewer than 4 candles the spike block contributes
nothing; and on scenario B (6 candles, sums 100 and 300, multiplier 2) the
ratio is 3, the alert is `"volume spike 3.0x"` and the magnitude is 15. -/
theorem c8_volume_spike (m : RawMarket) (cs : List Candle) (sm : ℤ) (sc : ℚ)
    (lh : ℤ) (lc : ℚ) (vm : ℚ) :
    (4 ≤ cs.length → m.yes_ask.getD 0 ≠ 0 → vm ≤ spikeRatio cs →
      (detect_movements m cs sm sc lh lc vm).isSome = true ∧
      ∀ al, detect_movements m cs sm sc lh lc vm = some al →
        ("volume spike " ++ fmt1 (spikeRatio cs) ++ "x") ∈ al.alerts ∧
        spikeRatio cs * 5 ≤ al.magnitude) ∧
    (cs.length < 4 → volumeSpikeStep cs vm = ([], 0)) ∧
    detect_movements mkt46 csB 30 5 2 10 2 = some aB ∧
    spikeRatio csB = 3 ∧
    "volume spike 3.0x" ∈ aB.alerts ∧ (15 : ℚ) ≤ aB.magnitude := by
  refine ⟨?_, volumeSpikeStep_of_short cs vm, detect_mkt46_csB, spikeRatio_csB,
    by simp [aB], by norm_num [aB]⟩
  intro h4 hya hr
  cases cs with
  | nil => simp at h4
  | cons c0 rest =>
    have hv : volumeSpikeStep (c0 :: rest) vm =
        (["volume spike " ++ fmt1 (spikeRatio (c0 :: rest)) ++ "x"],
          spikeRatio (c0 :: rest) * 5) := by
      simp only [volumeSpikeStep]
      rw [if_pos h4, if_pos hr]
    constructor
    · simp only [detect_movements]
      rw [if_neg hya]
      apply assembleAlert_isSome
      rw [hv]
      simp
    · intro al hal
      simp only [detect_movements] at hal
      rw [if_neg hya] at hal
      obtain ⟨ha, hmag, hne⟩ := assembleAlert_eq_some _ _ _ _ _ _ hal
      constructor
      · rw [ha, hv]
        simp
      · rw [hmag, hv]
        exact le_max_right _ _

/-- Witness for C8: scenario B discharges the hypotheses (6 candles,
active ask, multiplier 2 ≤ ratio 3), and the conclusion is evaluated on
its concrete alert `aB`. -/
theorem c8_volume_spike_witness :
    (detect_movements mkt46 csB 30 5 2 10 2).isSome = true ∧
    ("volume spike " ++ fmt1 (spikeRatio csB) ++ "x") ∈ aB.alerts ∧
    spikeRatio csB * 5 ≤ aB.magnitude := by
  have h := (c8_volume_spike mkt46 csB 30 5 2 10 2).1 (by norm_num [csB])
    (by norm_num [mkt46]) (by rw [spikeRatio_csB]; norm_num)
  exact ⟨h.1, h.2 aB detect_mkt46_csB⟩

/-- C9 counterexample: on scenario A the flags are
`"wide-spread (20¢)"` (the code interpolates a ¢ sign) and
`"price-skew (15.0¢ gap)"` (the skew is |40+45-100| = 15, not 5), so the
claimed strings `"wide-spread (20)"` and `"price-skew (5.0¢ gap)"` are not
among the flags. -/
theorem c9_counterexample :
    score_market mA 500 = some sigA ∧
    "wide-spread (20)" ∉ sigA.flags ∧ "price-skew (5.0¢ gap)" ∉ sigA.flags :=
  ⟨score_market_mA, by decide, by decide⟩

/-- C9 (amended): flags are appended in the fixed order wide-spread,
low-volume, price-skew, each exactly under its condition (`spread ≥ 10`,
`volume_24h ≤ threshold`, `skew ≥ 5`); on scenario A the signal has
spread 20, midpoint 50, spread sub-score 0.8, skew 15 with skew sub-score
0.75, and flags `["wide-spread (20¢)", "low-volume (10)",
"price-skew (15.0¢ gap)"]`. -/
theorem c9_flags_amended (m : RawMarket) (vt : ℤ) (sig : MarketSignal) :
    (score_market m vt = some sig →
      sig.flags =
        (if 10 ≤ sig.spread then ["wide-spread (" ++ pyNumStr sig.spread ++ "¢)"] else [])
          ++ (if sig.volume_24h ≤ vt then
                ["low-volume (" ++ toString sig.volume_24h ++ ")"] else [])
          ++ (if 5 ≤ sig.skew then
                ["price-skew (" ++ fmt1 sig.skew ++ "¢ gap)"] else [])) ∧
    score_market mA 500 = some sigA ∧
    sigA.spread = 20 ∧ sigA.midpoint = 50 ∧ spread_score 20 50 = 4/5 ∧
    sigA.skew = 15 ∧ skew_score 40 45 = 3/4 ∧
    sigA.flags = ["wide-spread (20¢)", "low-volume (10)", "price-skew (15.0¢ gap)"] := by
  refine ⟨?_, score_market_mA, rfl, rfl, ?_, rfl, ?_, rfl⟩
  · intro hs
    by_cases hcond : m.yes_ask.getD 0 = 0 ∨ m.no_ask.getD 0 = 0
    · exfalso
      simp only [score_market] at hs
      rw [if_pos hcond] at hs
      simp at hs
    · simp only [score_market] at hs
      rw [if_neg hcond] at hs
      obtain rfl := Option.some_inj.mp hs
      rfl
  · norm_num [spread_score, max_def, min_def]
  · norm_num [skew_score, min_def]

/-- Witness for C9: the flag-structure equation evaluated on scenario A's
signal. -/
theorem c9_flags_amended_witness :
    sigA.flags =
      (if 10 ≤ sigA.spread then ["wide-spread (" ++ pyNumStr sigA.spread ++ "¢)"] else [])
        ++ (if sigA.volume_24h ≤ 500 then
              ["low-volume (" ++ toString sigA.volume_24h ++ ")"] else [])
        ++ (if 5 ≤ sigA.skew then
              ["price-skew (" ++ fmt1 sigA.skew ++ "¢ gap)"] else []) :=
  (c9_flags_amended mA 500 sigA).1 score_market_mA

/-- C10: a produced `MovementAlert` always carries a non-empty alerts list,
and when the three thresholds are strictly positive its magnitude is
strictly positive (every fired step contributes at least its threshold,
`|move| ≥ short_cents`, `|move| ≥ long_cents`, or `ratio*5 ≥
volume_multiplier*5`). -/
theorem c10_alert_invariant (m : RawMarket) (cs : List Candle) (sm : ℤ) (sc : ℚ)
    (lh : ℤ) (lc : ℚ) (vm : ℚ) (al : MovementAlert)
    (h : detect_movements m cs sm sc lh lc vm = some al) :
    al.alerts ≠ [] ∧ (0 < sc → 0 < lc → 0 < vm → 0 < al.magnitude) := by
  cases cs with
  | nil => simp [detect_movements] at h
  | cons c0 rest =>
    simp only [detect_movements] at h
    by_cases h1 : m.yes_ask.getD 0 = 0
    · rw [if_pos h1] at h
      simp at h
    · rw [if_neg h1] at h
      obtain ⟨ha, hmag, hne⟩ := assembleAlert_eq_some _ _ _ _ _ _ h
      constructor
      · rw [ha]
        exact hne
      · intro hsc hlc hvm
        rw [hmag]
        exact magnitude_pos _ _ _ sc lc vm
          (priceMoveStep_snd_of_fired _ _ _ _ _)
          (priceMoveStep_snd_of_fired _ _ _ _ _)
          (volumeSpikeStep_snd_of_fired _ _)
          hne hsc hlc hvm

/-- Witness for C10 on the concrete alert `aD` (both price moves fire,
magnitude 10 > 0). -/
theorem c10_alert_invariant_witness :
    aD.alerts ≠ [] ∧ 0 < aD.magnitude :=
  ⟨(c10_alert_invariant mkt46 [cD] 30 5 2 10 2 aD detect_mkt46_cD).1,
   (c10_alert_invariant mkt46 [cD] 30 5 2 10 2 aD detect_mkt46_cD).2
     (by norm_num) (by norm_num) (by norm_num)⟩
